import Mathlib

/-!
# Cashflow Foundation — verification of the spec's claims against the source

Shallow embedding of `src/src/App.jsx` (the single source file of the
repository).  JavaScript numbers are idealised as exact rationals `ℚ`
(the program performs only +, -, *, /, min, max and comparisons, so the
rational semantics is the intended exact arithmetic; IEEE-754 rounding
and overflow-to-Infinity on astronomically large literals are not
modelled).  Strings are Lean `String`s; `Number(string)` is modelled by
`jsNumber?`, returning `none` when the JavaScript result would be `NaN`
or `±Infinity` (both non-finite, which is the only distinction the code
ever makes via `Number.isFinite`).
-/

set_option allowUnsafeReducibility true

attribute [semireducible] Rat.add Rat.sub Rat.mul Rat.div Rat.inv

namespace Cashflow

/-- `Math.min` on finite values (kernel-computable form of `min` on `ℚ`). -/
def jsMin (a b : ℚ) : ℚ := if a ≤ b then a else b

/-- `Math.max` on finite values (kernel-computable form of `max` on `ℚ`). -/
def jsMax (a b : ℚ) : ℚ := if a ≤ b then b else a

/-- `Math.abs` on finite values. -/
def jsAbs (q : ℚ) : ℚ := if q < 0 then -q else q

/-- Floor of a rational as Euclidean division of numerator by (positive)
denominator — kernel-computable `⌊q⌋`. -/
def ratFloor (q : ℚ) : ℤ := Int.ediv q.num q.den

/-- JavaScript decimal digit test: `'0' ≤ c ≤ '9'`. -/
def jsDigit (c : Char) : Bool := decide (48 ≤ c.toNat) && decide (c.toNat ≤ 57)

/-- Numeric value of a digit character. -/
def charDigitVal (c : Char) : Nat := c.toNat - 48

/-- Value of a big-endian list of decimal digit values. -/
def decVal (ds : List Nat) : Nat := ds.foldl (fun a d => 10 * a + d) 0

/-- Split a leading run of decimal digits (as values) from a char list. -/
def takeDigits : List Char → List Nat × List Char
  | [] => ([], [])
  | c :: cs =>
    if jsDigit c then
      let p := takeDigits cs
      (charDigitVal c :: p.1, p.2)
    else ([], c :: cs)

/-- Whitespace stripped by `Number(string)` (the common code points). -/
def isJsSpace (c : Char) : Bool :=
  c == ' ' || c == '\t' || c == '\n' || c == '\r' ||
  c == Char.ofNat 11 || c == Char.ofNat 12 || c == Char.ofNat 160 || c == Char.ofNat 0xFEFF

/-- Trim JS whitespace from both ends of a char list. -/
def trimJs (l : List Char) : List Char :=
  ((l.dropWhile isJsSpace).reverse.dropWhile isJsSpace).reverse

/-- Parse an exponent-digit run that must consume the whole rest. -/
def digitsAllVal : List Char → Option Nat := fun cs =>
  let p := takeDigits cs
  if p.1.isEmpty || !p.2.isEmpty then none else some (decVal p.1)

/-- Optional `e`/`E` exponent tail of a JS decimal literal (must end the string). -/
def parseExpTail (cs : List Char) (v : ℚ) : Option ℚ :=
  match cs with
  | [] => some v
  | c :: rest =>
    if c = 'e' ∨ c = 'E' then
      match rest with
      | '+' :: r2 => (digitsAllVal r2).map (fun e => v * (10 : ℚ) ^ (e : ℤ))
      | '-' :: r2 => (digitsAllVal r2).map (fun e => v * (10 : ℚ) ^ (-(e : ℤ)))
      | r2 => (digitsAllVal r2).map (fun e => v * (10 : ℚ) ^ (e : ℤ))
    else none

/-- Unsigned JS decimal literal: `D+ [. D*] [exp]` or `. D+ [exp]`. -/
def parseDecCore (cs : List Char) : Option ℚ :=
  let ip := takeDigits cs
  match ip.2 with
  | '.' :: r2 =>
    let fp := takeDigits r2
    if ip.1.isEmpty ∧ fp.1.isEmpty then none
    else parseExpTail fp.2 ((decVal ip.1 : ℚ) + (decVal fp.1 : ℚ) / (10 : ℚ) ^ fp.1.length)
  | _ => if ip.1.isEmpty then none else parseExpTail ip.2 ((decVal ip.1 : ℚ))

/-- Unsigned numeric part after an optional sign (`Infinity` is non-finite, hence `none`). -/
def parseUnsignedDec (cs : List Char) : Option ℚ :=
  if cs = "Infinity".toList then none else parseDecCore cs

/-- Hexadecimal digit value. -/
def hexVal? (c : Char) : Option Nat :=
  if jsDigit c then some (c.toNat - 48)
  else if 97 ≤ c.toNat ∧ c.toNat ≤ 102 then some (c.toNat - 87)
  else if 65 ≤ c.toNat ∧ c.toNat ≤ 70 then some (c.toNat - 55)
  else none

/-- Octal digit value. -/
def octVal? (c : Char) : Option Nat :=
  if 48 ≤ c.toNat ∧ c.toNat ≤ 55 then some (c.toNat - 48) else none

/-- Binary digit value. -/
def binVal? (c : Char) : Option Nat :=
  if 48 ≤ c.toNat ∧ c.toNat ≤ 49 then some (c.toNat - 48) else none

/-- Value of a digit run in a given radix; `none` on any invalid digit. -/
def radixVal? (dig : Char → Option Nat) (radix : Nat) (cs : List Char) : Option Nat :=
  cs.foldl
    (fun acc c =>
      match acc, dig c with
      | some a, some d => some (radix * a + d)
      | _, _ => none)
    (some 0)

/-- The `0x`/`0o`/`0b` non-decimal literal cases of `Number`, for a trimmed
string starting with `'0'` followed by `r`. -/
def jsNumberZero : List Char → Option ℚ
  | [] => some 0
  | c2 :: r2 =>
    if c2 = 'x' ∨ c2 = 'X' then
      if r2.isEmpty then none else (radixVal? hexVal? 16 r2).map (fun n => (n : ℚ))
    else if c2 = 'o' ∨ c2 = 'O' then
      if r2.isEmpty then none else (radixVal? octVal? 8 r2).map (fun n => (n : ℚ))
    else if c2 = 'b' ∨ c2 = 'B' then
      if r2.isEmpty then none else (radixVal? binVal? 2 r2).map (fun n => (n : ℚ))
    else parseUnsignedDec ('0' :: c2 :: r2)

/-- `Number` on a non-empty trimmed character list. -/
def jsNumberCons (c : Char) (r : List Char) : Option ℚ :=
  if c = '+' then parseUnsignedDec r
  else if c = '-' then (parseUnsignedDec r).map (fun q => -q)
  else if c = '0' then jsNumberZero r
  else parseUnsignedDec (c :: r)

/-- `Number(s)` for a JavaScript string, as an exact rational; `none` when the
JavaScript result is `NaN` or `±Infinity` (i.e. not a finite number). -/
def jsNumber? (s : String) : Option ℚ :=
  match trimJs s.toList with
  | [] => some 0
  | c :: r => jsNumberCons c r

/-- Remove every comma, as `String(x).replace(/,/g, "")` does. -/
def stripCommas (s : String) : String := ⟨s.toList.filter (fun c => c ≠ ',')⟩

/-- `toNumber` from the source (the spec's `normalizeMoneyText`):
`const n = Number(String(maybe ?? "").replace(/,/g, "")); return Number.isFinite(n) ? n : 0;` -/
def toNumber (s : String) : ℚ := (jsNumber? (stripCommas s)).getD 0

/-- The `MoneyInput` change handler's sanitiser from the source:
`e.target.value.replace(/[^0-9.,]/g, "")`. -/
def moneyInputSanitize (s : String) : String :=
  ⟨s.toList.filter (fun c => jsDigit c || c = '.' || c = ',')⟩

/-- The spec's described `normalizeMoneyText`, written from the spec's words
(for the refinement comparison of claim C6, not from the source): strip
thousands separators and any character outside digits and the decimal point,
then return the resulting number, with 0 for a non-finite result. -/
def specNormalizeMoneyText (s : String) : ℚ :=
  (jsNumber? ⟨s.toList.filter (fun c => jsDigit c || c = '.')⟩).getD 0

/-- The `PercentInput` change handler from the source:
`v = value.replace(/[^0-9.]/g, ""); n = Math.min(100, Math.max(0, Number(v || 0)));
store String(Number.isFinite(n) ? n : 0)` — modelled as the stored numeric value. -/
def percentClamp (s : String) : ℚ :=
  match jsNumber? ⟨s.toList.filter (fun c => jsDigit c || c = '.')⟩ with
  | some q => jsMin 100 (jsMax 0 q)
  | none => 0

/-- Digit character of a digit value (`< 10`). -/
def digitChar : Nat → Char
  | 0 => '0' | 1 => '1' | 2 => '2' | 3 => '3' | 4 => '4'
  | 5 => '5' | 6 => '6' | 7 => '7' | 8 => '8' | _ => '9'

/-- Fuelled big-endian decimal digits of a natural number (fuel > n suffices). -/
def natDigitsFuel : Nat → Nat → List Char
  | 0, _ => []
  | fuel + 1, n =>
    if n < 10 then [digitChar n]
    else natDigitsFuel fuel (n / 10) ++ [digitChar (n % 10)]

/-- JavaScript `String(n)` for a non-negative integer. -/
def natToStr (n : Nat) : String := ⟨natDigitsFuel (n + 1) n⟩

/-- JavaScript `String(n)` for an integer. -/
def intToStr (z : ℤ) : String :=
  if z < 0 then "-" ++ natToStr (-z).toNat else natToStr z.toNat

/-- `String(m).padStart(2, "0")` for the month component. -/
def pad2 (n : Nat) : String := if n < 10 then "0" ++ natToStr n else natToStr n

/-- Insert thousands-grouping commas into a reversed digit list. -/
def group3rev : List Char → List Char
  | d1 :: d2 :: d3 :: d4 :: rest => d1 :: d2 :: d3 :: ',' :: group3rev (d4 :: rest)
  | l => l

/-- `fmtUSD` from the source: `Number(n || 0).toLocaleString(undefined,
{style: "currency", currency: "USD", maximumFractionDigits: 0})`, modelled for
the en-US locale: round half-away-from-zero to whole dollars, group digits in
threes with commas, prefix `$` (and `-` for negatives). -/
def fmtUSD (q : ℚ) : String :=
  let r := (ratFloor (jsAbs q + (1 : ℚ) / 2)).toNat
  let ds := natDigitsFuel (r + 1) r
  ⟨(if q < 0 then ['-'] else []) ++ '$' :: (group3rev ds.reverse).reverse⟩

/-- `String(yyyymm).split("-")`: split on every dash, keeping empty pieces. -/
def splitDashAux : List Char → List Char → List String
  | [], acc => [⟨acc.reverse⟩]
  | c :: rest, acc =>
    if c = '-' then ⟨acc.reverse⟩ :: splitDashAux rest [] else splitDashAux rest (c :: acc)

/-- JavaScript `s.split("-")`. -/
def splitOnDash (s : String) : List String := splitDashAux s.toList []

/-- `ToInteger` truncation used by the `Date` constructor on fractional input. -/
def jsTrunc (q : ℚ) : ℤ := if 0 ≤ q then ratFloor q else -ratFloor (-q)

/-- Render `${year}-${String(month).padStart(2, "0")}`. -/
def renderToken (y : ℤ) (m : Nat) : String := intToStr y ++ "-" ++ pad2 m

/-- `monthDiff(a, b)` from the source:
`(by - ay) * 12 + (bm - am)` after splitting both tokens on `-` and applying
`Number`; `none` models the `NaN` result of a malformed token. -/
def monthDiff? (a b : String) : Option ℚ :=
  match ((splitOnDash a).get? 0).bind jsNumber?, ((splitOnDash a).get? 1).bind jsNumber?,
        ((splitOnDash b).get? 0).bind jsNumber?, ((splitOnDash b).get? 1).bind jsNumber? with
  | some ay, some am, some yy, some ym => some ((yy - ay) * 12 + (ym - am))
  | _, _, _, _ => none

/-- The year the `Date(y, …)` constructor uses: years 0–99 are read as
1900+y, fractional years are truncated. -/
def dateYear (yq : ℚ) : ℤ :=
  if 0 ≤ jsTrunc yq ∧ jsTrunc yq ≤ 99 then jsTrunc yq + 1900 else jsTrunc yq

/-- The `m || 1` month the source feeds to the `Date` constructor: a missing
or `NaN` or zero month reads as 1. -/
def dateMonth (mq : Option ℚ) : ℤ :=
  match mq with
  | none => 1
  | some q => if jsTrunc q = 0 then 1 else jsTrunc q

/-- The total month count `year * 12 + (monthIndex) + add` that
`setMonth(getMonth() + add)` normalises. -/
def monthAddTotal (yq : ℚ) (mq : Option ℚ) (add : ℤ) : ℤ :=
  dateYear yq * 12 + (dateMonth mq - 1) + add

/-- `monthAdd(yyyymm, add)` from the source: parse `[y, m]`, build
`new Date(y, (m || 1) - 1, 1)`, `setMonth(getMonth() + add)`
(floor-normalised month arithmetic), and render
`${getFullYear()}-${pad2(month + 1)}`.  A non-numeric year yields the
JavaScript output `"NaN-NaN"`. -/
def monthAdd (s : String) (add : ℤ) : String :=
  match ((splitOnDash s).get? 0).bind jsNumber? with
  | none => "NaN-NaN"
  | some yq =>
    renderToken
      (Int.fdiv (monthAddTotal yq (((splitOnDash s).get? 1).bind jsNumber?) add) 12)
      ((Int.fmod (monthAddTotal yq (((splitOnDash s).get? 1).bind jsNumber?) add) 12).toNat + 1)

/-- A `Need` row from the source's `cashflow.needs`.  `target` and `funded`
are stored as money text in the source and normalised with `toNumber` at
every use; they are idealised here as the exact rational values (JavaScript
`String(n)`/`Number(s)` round-trip exactly).  `paidMonth` is the spec's
data-model field (`MonthToken | unset`); the source never sets it, so it
defaults to `none` and every source-translated operation preserves it. -/
structure Need where
  id : String
  name : String
  target : ℚ
  dueMonth : String
  funded : ℚ
  status : String
  paidMonth : Option String := none
deriving DecidableEq

/-- `WorkingCapitalTool` inputs, numeric fields idealised as their
`toNumber`-normalised rational values. -/
structure WorkingCapital where
  operatingExpenses : ℚ
  inventoryCost : ℚ
  daysPerMonth : ℚ
  avgCollectionDays : ℚ
  businessChecking : ℚ
  reserveAccountBalance : ℚ
  bufferDays : ℚ
  reserveDays : ℚ
deriving DecidableEq

/-- `monthlySpend = toNumber(wc.operatingExpenses) + toNumber(wc.inventoryCost)`. -/
def monthlySpend (wc : WorkingCapital) : ℚ := wc.operatingExpenses + wc.inventoryCost

/-- `perDay = daysPerMonth > 0 ? monthlySpend / daysPerMonth : 0`. -/
def perDay (wc : WorkingCapital) : ℚ :=
  if 0 < wc.daysPerMonth then monthlySpend wc / wc.daysPerMonth else 0

/-- `wcGoal = perDay * bufferDays`. -/
def wcGoal (wc : WorkingCapital) : ℚ := perDay wc * wc.bufferDays

/-- `reserveGoal = perDay * reserveDays`. -/
def reserveGoal (wc : WorkingCapital) : ℚ := perDay wc * wc.reserveDays

/-- `businessShortOrExcess = businessBalance - wcGoal` (a.k.a. `businessDelta`). -/
def businessDelta (wc : WorkingCapital) : ℚ := wc.businessChecking - wcGoal wc

/-- `availableFromBusiness = Math.max(0, businessShortOrExcess)`. -/
def availableFromBusiness (wc : WorkingCapital) : ℚ := jsMax 0 (businessDelta wc)

/-- `reserveShort = Math.max(0, reserveGoal - reserveBalance)`. -/
def reserveShort (wc : WorkingCapital) : ℚ :=
  jsMax 0 (reserveGoal wc - wc.reserveAccountBalance)

/-- `moveToReserve = Math.min(availableFromBusiness, reserveShort)`. -/
def moveToReserve (wc : WorkingCapital) : ℚ :=
  jsMin (availableFromBusiness wc) (reserveShort wc)

/-- `moveToFamilyOffice = Math.max(0, availableFromBusiness - moveToReserve)`. -/
def moveToFamilyOffice (wc : WorkingCapital) : ℚ :=
  jsMax 0 (availableFromBusiness wc - moveToReserve wc)

/-- `reserveDelta = reserveBalance - reserveGoal`. -/
def reserveDelta (wc : WorkingCapital) : ℚ := wc.reserveAccountBalance - reserveGoal wc

/-- `CashflowTool` inputs (`cf`), numeric text fields idealised as their
`toNumber`-normalised rational values. -/
structure CashflowState where
  businessIn : ℚ
  w2In : ℚ
  givingIsDollar : Bool
  givingPercent : ℚ
  givingDollar : ℚ
  lifestyleMonthly : ℚ
  needs : List Need
deriving DecidableEq

/-- `inflow = toNumber(cf.businessIn) + toNumber(cf.w2In)`. -/
def inflow (cf : CashflowState) : ℚ := cf.businessIn + cf.w2In

/-- `givingAmount = cf.givingIsDollar ? Math.min(toNumber(cf.givingDollar), inflow)
: (toNumber(cf.givingPercent) / 100) * inflow`. -/
def givingAmount (cf : CashflowState) : ℚ :=
  if cf.givingIsDollar then jsMin cf.givingDollar (inflow cf)
  else cf.givingPercent / 100 * inflow cf

/-- `emergencyHeldInFO = 1 * toNumber(cf.lifestyleMonthly)`. -/
def emergencyHeldInFO (cf : CashflowState) : ℚ := 1 * cf.lifestyleMonthly

/-- `lifestyleTargetBalance = 2 * toNumber(cf.lifestyleMonthly)`. -/
def lifestyleTargetBalance (cf : CashflowState) : ℚ := 2 * cf.lifestyleMonthly

/-- `inWindow(n)`: `n.status === "open"` and
`0 <= monthDiff(month, n.dueMonth) <= 5` (a `NaN` diff fails both bounds). -/
def inWindow (month : String) (n : Need) : Bool :=
  (n.status == "open") &&
    match monthDiff? month n.dueMonth with
    | some d => decide (0 ≤ d) && decide (d ≤ 5)
    | none => false

/-- `activeNeeds = cf.needs.filter(n => n.status === "open")`. -/
def activeNeeds (needs : List Need) : List Need :=
  needs.filter (fun n => n.status == "open")

/-- `totalReservedOpen = activeNeeds.reduce((sum, n) => sum + toNumber(n.funded), 0)`. -/
def totalReservedOpen (needs : List Need) : ℚ :=
  (activeNeeds needs).foldl (fun s n => s + n.funded) 0

/-- `windowNeeds = cf.needs.filter(inWindow)`. -/
def windowNeeds (month : String) (needs : List Need) : List Need :=
  needs.filter (fun n => inWindow month n)

/-- `remainingTotal = windowNeeds.reduce((sum, n) => sum + Math.max(0, target - funded), 0)`. -/
def remainingTotal (month : String) (needs : List Need) : ℚ :=
  (windowNeeds month needs).foldl (fun s n => s + jsMax 0 (n.target - n.funded)) 0

/-- `availableAfterRequired = inflow - givingAmount - toNumber(cf.lifestyleMonthly)`. -/
def availableAfterRequired (cf : CashflowState) : ℚ :=
  inflow cf - givingAmount cf - cf.lifestyleMonthly

/-- `allocateToNeeds = Math.max(0, Math.min(availableAfterRequired, remainingTotal))`. -/
def allocateToNeeds (month : String) (cf : CashflowState) : ℚ :=
  jsMax 0 (jsMin (availableAfterRequired cf) (remainingTotal month cf.needs))

/-- `excess = availableAfterRequired - allocateToNeeds`. -/
def excess (month : String) (cf : CashflowState) : ℚ :=
  availableAfterRequired cf - allocateToNeeds month cf

/-- The sort comparator of `runMonthlyAllocation`:
`(a, b) => monthDiff(a.dueMonth, b.dueMonth)`.  ECMAScript sorts `a` before
`b` exactly when the comparator is negative, so this Boolean is the
"strictly before" relation the sort realises (`false` on a `NaN` diff). -/
def needLt (a b : Need) : Bool :=
  match monthDiff? a.dueMonth b.dueMonth with
  | some d => decide (d < 0)
  | none => false

/-- Stable insert for the ECMAScript sort model: `x` (arriving after
everything already in the accumulator) goes after every element it does not
strictly precede. -/
def insertByLt {α : Type} (lt : α → α → Bool) (x : α) : List α → List α
  | [] => [x]
  | y :: ys => if lt x y then x :: y :: ys else y :: insertByLt lt x ys

/-- `[...arr].sort(cmp)`: stable, ascending with respect to the comparator. -/
def jsSort {α : Type} (lt : α → α → Bool) (l : List α) : List α :=
  l.foldl (fun acc x => insertByLt lt x acc) []

/-- One iteration of the funding walk of `runMonthlyAllocation`:
skip needs out of window, skip once `remainingPool <= 0`, otherwise add
`Math.min(Math.max(0, target - funded), remainingPool)` to `funded` and
deduct it from the pool. -/
def allocStep (month : String) (pool : ℚ) (n : Need) : ℚ × Need :=
  if inWindow month n = false then (pool, n)
  else if pool ≤ 0 then (pool, n)
  else
    let add := jsMin (jsMax 0 (n.target - n.funded)) pool
    (pool - add, { n with funded := n.funded + add })

/-- The funding walk over the sorted list (`sorted.map` with the mutable
`remainingPool` closure), returning the mapped list and the final pool. -/
def allocWalk (month : String) : ℚ → List Need → List Need × ℚ
  | pool, [] => ([], pool)
  | pool, n :: ns =>
    let p := allocStep month pool n
    let rest := allocWalk month p.1 ns
    (p.2 :: rest.1, rest.2)

/-- `new Map(next.map(n => [n.id, n])).get(id)`: later entries win, so this
is the last element of `next` with the given id. -/
def lookupLastById (l : List Need) (nid : String) : Option Need :=
  l.reverse.find? (fun o => o.id == nid)

/-- `runMonthlyAllocation`'s needs transformation with the pool as an
explicit argument: sort with the source comparator, walk the sorted list,
then rebuild the original order via the id map
(`s.needs.map(n => byId.get(n.id) ?? n)`). -/
def allocApply (month : String) (pool : ℚ) (needs : List Need) : List Need :=
  let next := (allocWalk month pool (jsSort needLt needs)).1
  needs.map (fun n => (lookupLastById next n.id).getD n)

/-- `runMonthlyAllocation` from the source, with the pool initialised to
`allocateToNeeds`; returns the updated needs list. -/
def runMonthlyAllocation (month : String) (cf : CashflowState) : List Need :=
  allocApply month (allocateToNeeds month cf) cf.needs

/-- Modelled from the spec: the "mark paid" lifecycle operation is described
in the spec (status→paid, records `paidMonth = currentViewedMonth`, no
fundedAmount change) but has no handler in `src/src/App.jsx`; it is realised
here through the source's `updateNeed(id, patch)` pattern
(`needs.map(n => n.id === id ? {...n, ...patch} : n)`). -/
def markPaid (curMonth nid : String) (needs : List Need) : List Need :=
  needs.map fun n =>
    if n.id == nid then { n with status := "paid", paidMonth := some curMonth } else n

/-- Modelled from the spec: the "reopen" lifecycle operation (status→open,
clears `paidMonth`) via the source's `updateNeed` pattern; absent from
`src/src/App.jsx`. -/
def reopenNeed (nid : String) (needs : List Need) : List Need :=
  needs.map fun n =>
    if n.id == nid then { n with status := "open", paidMonth := none } else n

/-- The worked waterfall example of the spec (§8). -/
def wcExample : WorkingCapital :=
  { operatingExpenses := 55000, inventoryCost := 0, daysPerMonth := 30,
    avgCollectionDays := 1, businessChecking := 125000,
    reserveAccountBalance := 75000, bufferDays := 45, reserveDays := 45 }

/-- A working-capital state whose business checking is below its buffer. -/
def wcShort : WorkingCapital :=
  { operatingExpenses := 30000, inventoryCost := 0, daysPerMonth := 30,
    avgCollectionDays := 1, businessChecking := 10000,
    reserveAccountBalance := 0, bufferDays := 45, reserveDays := 45 }

/-- The sooner-due need of the funding example (remaining gap 3000). -/
def needSoon : Need :=
  { id := "a", name := "Sooner", target := 3000, dueMonth := "2026-03",
    funded := 0, status := "open" }

/-- The later-due need of the funding example (remaining gap 5000). -/
def needLater : Need :=
  { id := "b", name := "Later", target := 5000, dueMonth := "2026-05",
    funded := 0, status := "open" }

/-- A need outside the 6-month window of view month 2026-02. -/
def needFar : Need :=
  { id := "far", name := "Far", target := 700, dueMonth := "2027-06",
    funded := 0, status := "open" }

/-- Cash-flow inputs that make `allocateToNeeds "2026-02" _ = 4000` for the
two example needs (inflow 4000, no giving, no lifestyle). -/
def cfFundingExample : CashflowState :=
  { businessIn := 4000, w2In := 0, givingIsDollar := true, givingPercent := 0,
    givingDollar := 0, lifestyleMonthly := 0, needs := [needSoon, needLater] }

/-- Cash-flow inputs of the giving-cap example: inflow 5000, fixed giving 8000. -/
def cfGivingExample : CashflowState :=
  { businessIn := 5000, w2In := 0, givingIsDollar := true, givingPercent := 0,
    givingDollar := 8000, lifestyleMonthly := 0, needs := [] }

/-- Pointwise relation between a need entering the funding walk and the
corresponding output need: every field except `funded` is unchanged,
`funded` does not decrease and never passes `max funded target`, and an
out-of-window need is returned untouched. -/
def allocRel (month : String) (n o : Need) : Prop :=
  o.id = n.id ∧ o.name = n.name ∧ o.target = n.target ∧ o.dueMonth = n.dueMonth ∧
  o.status = n.status ∧ o.paidMonth = n.paidMonth ∧ n.funded ≤ o.funded ∧
  o.funded ≤ max n.funded n.target ∧ (inWindow month n = false → o = n)

/-- `jsMin` is `min`. -/
theorem jsMin_eq (a b : ℚ) : jsMin a b = min a b := by
  rw [jsMin, min_def]

/-- `jsMax` is `max`. -/
theorem jsMax_eq (a b : ℚ) : jsMax a b = max a b := by
  rw [jsMax, max_def]

/-- Claim C1, evidence of the code bug: on the spec's own example — two
in-window needs with remaining gaps 3000 (due 2026-03, sooner) and 5000
(due 2026-05, later), viewed month 2026-02, pool 4000 — the source's
funding action funds the LATER-due need first (its comparator
`monthDiff(a.dueMonth, b.dueMonth)` is positive when `b` is due later,
which ECMAScript sorting treats as "b before a", i.e. descending due
order), so the funded increments are [0, 4000], not the claimed
[3000, 1000]. -/
theorem runMonthlyAllocation_funds_latest_due_first :
    allocateToNeeds "2026-02" cfFundingExample = 4000 ∧
    runMonthlyAllocation "2026-02" cfFundingExample =
      [needSoon, { needLater with funded := 4000 }] ∧
    (runMonthlyAllocation "2026-02" cfFundingExample).map Need.funded = [0, 4000] ∧
    (runMonthlyAllocation "2026-02" cfFundingExample).map Need.funded ≠ [3000, 1000] :=
  ⟨by decide, by decide, by decide, by decide⟩

/-- Claim C2: the working-capital waterfall satisfies the claimed equations;
whenever the business checking is below its buffer (`businessDelta < 0`),
both transfers are 0; and the worked example yields
businessDelta 42500, reserveShortfall 7500, moveToReserve 7500,
moveToFamilyOffice 35000. -/
theorem workingCapital_waterfall_spec :
    (∀ wc : WorkingCapital,
      availableFromBusiness wc = max 0 (wc.businessChecking - wcGoal wc) ∧
      reserveShort wc = max 0 (reserveGoal wc - wc.reserveAccountBalance) ∧
      moveToReserve wc = min (availableFromBusiness wc) (reserveShort wc) ∧
      moveToFamilyOffice wc = max 0 (availableFromBusiness wc - moveToReserve wc) ∧
      (businessDelta wc < 0 → moveToReserve wc = 0 ∧ moveToFamilyOffice wc = 0)) ∧
    businessDelta wcExample = 42500 ∧ reserveShort wcExample = 7500 ∧
    moveToReserve wcExample = 7500 ∧ moveToFamilyOffice wcExample = 35000 := by
  refine ⟨fun wc => ⟨rfl, rfl, rfl, rfl, fun h => ?_⟩,
    by decide, by decide, by decide, by decide⟩
  have havail : availableFromBusiness wc = 0 := max_eq_left (le_of_lt h)
  have hmtr : moveToReserve wc = 0 := by
    unfold moveToReserve
    rw [havail]
    exact min_eq_left (le_max_left 0 _)
  refine ⟨hmtr, ?_⟩
  unfold moveToFamilyOffice
  rw [havail, hmtr]
  simp [jsMax]

/-- Witness for C2: a concrete state with the business below its buffer
moves nothing. -/
theorem workingCapital_waterfall_spec_witness :
    businessDelta wcShort < 0 ∧ moveToReserve wcShort = 0 ∧ moveToFamilyOffice wcShort = 0 :=
  ⟨by decide, (workingCapital_waterfall_spec.1 wcShort).2.2.2.2 (by decide)⟩

/-- Claim C4: dollar-mode giving is `min(givingDollar, inflow)` and never
exceeds the inflow; percent-mode giving is `(percent/100) * inflow`; and
with inflow 5000 and a fixed giving amount of 8000 the transfer is 5000. -/
theorem givingAmount_spec :
    (∀ cf : CashflowState, cf.givingIsDollar = true →
      givingAmount cf = min cf.givingDollar (inflow cf) ∧ givingAmount cf ≤ inflow cf) ∧
    (∀ cf : CashflowState, cf.givingIsDollar = false →
      givingAmount cf = cf.givingPercent / 100 * inflow cf) ∧
    inflow cfGivingExample = 5000 ∧ givingAmount cfGivingExample = 5000 := by
  refine ⟨fun cf h => ?_, fun cf h => ?_, by decide, by decide⟩
  · refine ⟨by simp [givingAmount, h, jsMin_eq], ?_⟩
    simp only [givingAmount, h, if_true, jsMin_eq]
    exact min_le_right _ _
  · simp [givingAmount, h]

/-- Witness for C4 at the concrete giving example. -/
theorem givingAmount_spec_witness :
    givingAmount cfGivingExample = min cfGivingExample.givingDollar (inflow cfGivingExample) ∧
    givingAmount cfGivingExample ≤ inflow cfGivingExample :=
  givingAmount_spec.1 cfGivingExample (by decide)

/-- Adding the clamped gap to `funded` lands exactly at `max funded target`. -/
theorem funded_add_gap (f t : ℚ) : f + max 0 (t - f) = max f t := by
  rcases le_total f t with h | h
  · rw [max_eq_right (sub_nonneg.mpr h), max_eq_right h]
    ring
  · rw [max_eq_left (sub_nonpos.mpr h), max_eq_left h]
    ring

/-- Each step of the funding walk satisfies `allocRel`. -/
theorem allocStep_rel (month : String) (pool : ℚ) (n : Need) :
    allocRel month n (allocStep month pool n).2 := by
  unfold allocStep
  split
  · exact ⟨rfl, rfl, rfl, rfl, rfl, rfl, le_refl _, le_max_left _ _, fun _ => rfl⟩
  · split
    · exact ⟨rfl, rfl, rfl, rfl, rfl, rfl, le_refl _, le_max_left _ _, fun _ => rfl⟩
    · rename_i hwin hpool
      refine ⟨rfl, rfl, rfl, rfl, rfl, rfl, ?_, ?_, fun hf => absurd hf hwin⟩
      · refine le_add_of_nonneg_right ?_
        rw [jsMin_eq, jsMax_eq]
        exact le_min (le_max_left 0 _) (le_of_lt (lt_of_not_le hpool))
      · rw [jsMin_eq, jsMax_eq]
        calc n.funded + min (max 0 (n.target - n.funded)) pool
            ≤ n.funded + max 0 (n.target - n.funded) :=
              add_le_add_left (min_le_left _ _) _
          _ = max n.funded n.target := funded_add_gap _ _

/-- The funding walk relates inputs and outputs pointwise. -/
theorem allocWalk_forall2 (month : String) :
    ∀ (pool : ℚ) (ns : List Need),
      List.Forall₂ (allocRel month) ns (allocWalk month pool ns).1 := by
  intro pool ns
  induction ns generalizing pool with
  | nil => exact List.Forall₂.nil
  | cons n ns ih =>
    simp only [allocWalk]
    exact List.Forall₂.cons (allocStep_rel month pool n) (ih _)

/-- Inserting with the comparator is a permutation. -/
theorem insertByLt_perm {α : Type} (lt : α → α → Bool) (x : α) (l : List α) :
    List.Perm (insertByLt lt x l) (x :: l) := by
  induction l with
  | nil => exact List.Perm.refl _
  | cons y ys ih =>
    unfold insertByLt
    split
    · exact List.Perm.refl _
    · exact (ih.cons y).trans (List.Perm.swap x y ys)

/-- The fold realising the ECMAScript sort is a permutation. -/
theorem jsSort_perm_aux {α : Type} (lt : α → α → Bool) :
    ∀ (l acc : List α),
      List.Perm (l.foldl (fun acc x => insertByLt lt x acc) acc) (acc ++ l) := by
  intro l
  induction l with
  | nil => intro acc; simp
  | cons x xs ih =>
    intro acc
    refine (ih (insertByLt lt x acc)).trans ?_
    refine (List.Perm.append_right xs (insertByLt_perm lt x acc)).trans ?_
    exact List.perm_middle.symm

/-- `jsSort` permutes its input. -/
theorem jsSort_perm {α : Type} (lt : α → α → Bool) (l : List α) :
    List.Perm (jsSort lt l) l := by
  simpa using jsSort_perm_aux lt l []

/-- `Forall₂` transported along `get?`. -/
theorem forall2_get? {α β : Type} {R : α → β → Prop} :
    ∀ {l₁ : List α} {l₂ : List β}, List.Forall₂ R l₁ l₂ →
      ∀ (i : Nat) (a : α), l₁.get? i = some a → ∃ b, l₂.get? i = some b ∧ R a b := by
  intro l₁ l₂ h
  induction h with
  | nil => intro i a h; simp at h
  | cons hr _ ih =>
    intro i a hget
    cases i with
    | zero =>
      simp only [List.get?] at hget
      cases hget
      exact ⟨_, rfl, hr⟩
    | succ j => exact ih j a hget

/-- Every right member of a `Forall₂` has a related left member. -/
theorem forall2_mem_right {α β : Type} {R : α → β → Prop} :
    ∀ {l₁ : List α} {l₂ : List β}, List.Forall₂ R l₁ l₂ →
      ∀ {b : β}, b ∈ l₂ → ∃ a ∈ l₁, R a b := by
  intro l₁ l₂ h
  induction h with
  | nil => intro b hb; simp at hb
  | cons hr _ ih =>
    intro b hb
    rcases List.mem_cons.mp hb with h1 | h1
    · subst h1
      exact ⟨_, List.mem_cons_self _ _, hr⟩
    · rcases ih h1 with ⟨a, ha, har⟩
      exact ⟨a, List.mem_cons_of_mem _ ha, har⟩

/-- The walk preserves the id sequence. -/
theorem forall2_map_id {month : String} :
    ∀ {l₁ l₂ : List Need}, List.Forall₂ (allocRel month) l₁ l₂ →
      l₂.map Need.id = l₁.map Need.id := by
  intro l₁ l₂ h
  induction h with
  | nil => rfl
  | cons hr _ ih => simp [ih, hr.1]

/-- A present id is found by the last-wins lookup. -/
theorem lookupLastById_mem {l : List Need} {nid : String}
    (h : nid ∈ l.map Need.id) :
    ∃ o, lookupLastById l nid = some o ∧ o.id = nid ∧ o ∈ l := by
  rcases List.mem_map.mp h with ⟨n, hn, hid⟩
  have hx : ∃ x, x ∈ l.reverse ∧ (x.id == nid) = true :=
    ⟨n, List.mem_reverse.mpr hn, by simp [hid]⟩
  rcases Option.isSome_iff_exists.mp (List.find?_isSome.mpr hx) with ⟨o, ho⟩
  refine ⟨o, ho, ?_, List.mem_reverse.mp (List.mem_of_find?_eq_some ho)⟩
  have := List.find?_some ho
  simpa using this

/-- The complete funding action relates the original needs list pointwise to
its output, provided ids are unique (the data model's id invariant). -/
theorem allocApply_forall2 (month : String) (pool : ℚ) (needs : List Need)
    (hnd : (needs.map Need.id).Nodup) :
    List.Forall₂ (allocRel month) needs (allocApply month pool needs) := by
  have hperm : List.Perm (jsSort needLt needs) needs := jsSort_perm _ _
  have hwalk := allocWalk_forall2 month pool (jsSort needLt needs)
  simp only [allocApply]
  rw [List.forall₂_map_right_iff]
  refine List.forall₂_same.mpr ?_
  intro n hn
  have hidmem : n.id ∈ ((allocWalk month pool (jsSort needLt needs)).1).map Need.id := by
    rw [forall2_map_id hwalk]
    exact (hperm.map Need.id).mem_iff.mpr (List.mem_map_of_mem Need.id hn)
  rcases lookupLastById_mem hidmem with ⟨o, hfind, hoid, homem⟩
  rcases forall2_mem_right hwalk homem with ⟨n', hn'mem, hrel⟩
  have hn'needs : n' ∈ needs := hperm.mem_iff.mp hn'mem
  have hne : n' = n :=
    List.inj_on_of_nodup_map hnd hn'needs hn (by rw [← hrel.1, hoid])
  subst hne
  rw [hfind]
  exact hrel

/-- Claim C10: the funding action only ever changes `funded`: the output list
has the same length and order, every other field of each need is unchanged,
`funded` never decreases, and `funded ≤ target` is preserved; the
user-triggered action is exactly this transformation at pool
`allocateToNeeds`. -/
theorem allocation_frame_spec :
    (∀ (month : String) (cf : CashflowState),
      runMonthlyAllocation month cf = allocApply month (allocateToNeeds month cf) cf.needs) ∧
    ∀ (month : String) (pool : ℚ) (needs : List Need),
      (needs.map Need.id).Nodup →
      (allocApply month pool needs).length = needs.length ∧
      ∀ (i : Nat) (n o : Need), needs.get? i = some n →
        (allocApply month pool needs).get? i = some o →
        o.id = n.id ∧ o.name = n.name ∧ o.target = n.target ∧
        o.dueMonth = n.dueMonth ∧ o.status = n.status ∧
        n.funded ≤ o.funded ∧ (n.funded ≤ n.target → o.funded ≤ n.target) := by
  refine ⟨fun month cf => rfl, fun month pool needs hnd => ?_⟩
  have h := allocApply_forall2 month pool needs hnd
  refine ⟨h.length_eq.symm, fun i n o hget hgot => ?_⟩
  rcases forall2_get? h i n hget with ⟨o', ho', hrel⟩
  rw [hgot] at ho'
  cases ho'
  rcases hrel with ⟨h1, h2, h3, h4, h5, _, h7, h8, _⟩
  refine ⟨h1, h2, h3, h4, h5, h7, fun hft => ?_⟩
  calc o.funded ≤ max n.funded n.target := h8
    _ = n.target := max_eq_right hft

/-- Witness for C10 on a concrete singleton list. -/
theorem allocation_frame_spec_witness :
    (allocApply "2026-02" (100 : ℚ) [needSoon]).length = 1 := by
  have h := (allocation_frame_spec.2 "2026-02" 100 [needSoon] (by decide)).1
  simpa using h

/-- Claim C3: a need is in-window exactly when it is open and due within 0–5
months of the viewed month; an out-of-window need contributes nothing to
`remainingTotal` and is untouched by the funding action even with a
non-empty pool. -/
theorem inWindow_exclusion_spec :
    (∀ (month : String) (n : Need), inWindow month n = true ↔
        n.status = "open" ∧ ∃ d, monthDiff? month n.dueMonth = some d ∧ 0 ≤ d ∧ d ≤ 5) ∧
    (∀ (month : String) (pre post : List Need) (n : Need), inWindow month n = false →
        remainingTotal month (pre ++ n :: post) = remainingTotal month (pre ++ post)) ∧
    (∀ (month : String) (pool : ℚ) (needs : List Need) (i : Nat) (n : Need),
        (needs.map Need.id).Nodup → needs.get? i = some n → inWindow month n = false →
        (allocApply month pool needs).get? i = some n) := by
  refine ⟨fun month n => ?_, fun month pre post n h => ?_,
    fun month pool needs i n hnd hget hwin => ?_⟩
  · unfold inWindow
    rcases hmd : monthDiff? month n.dueMonth with _ | d
    · simp [hmd]
    · simp [hmd]
  · unfold remainingTotal windowNeeds
    rw [List.filter_append, List.filter_append, List.filter_cons, h]
    simp
  · have hf := allocApply_forall2 month pool needs hnd
    rcases forall2_get? hf i n hget with ⟨o, ho, hrel⟩
    rw [ho, hrel.2.2.2.2.2.2.2.2 hwin]

/-- Witness for C3 on a need due outside the window. -/
theorem inWindow_exclusion_spec_witness :
    (allocApply "2026-02" (100 : ℚ) [needFar]).get? 0 = some needFar :=
  inWindow_exclusion_spec.2.2 "2026-02" 100 [needFar] 0 needFar (by decide) rfl (by decide)

/-- Mapping a funded-preserving transformation leaves the funded column as is. -/
theorem map_funded_of_preserve (g : Need → Need) (h : ∀ n, (g n).funded = n.funded) :
    ∀ needs : List Need, (needs.map g).map Need.funded = needs.map Need.funded := by
  intro needs
  induction needs with
  | nil => rfl
  | cons n ns ih => simp [h, ih]

/-- A pointwise-identity map is the identity. -/
theorem map_id_of_mem {g : Need → Need} :
    ∀ {l : List Need}, (∀ n ∈ l, g n = n) → l.map g = l := by
  intro l
  induction l with
  | nil => intro _; rfl
  | cons n ns ih =>
    intro h
    rw [List.map_cons, h n (List.mem_cons_self n ns),
      ih (fun x hx => h x (List.mem_cons_of_mem n hx))]

/-- `activeNeeds` on a cons. -/
theorem activeNeeds_cons (n : Need) (l : List Need) :
    activeNeeds (n :: l) =
      if (n.status == "open") = true then n :: activeNeeds l else activeNeeds l := by
  unfold activeNeeds
  rw [List.filter_cons]

/-- Marking a need paid removes exactly the needs with that id from the
open set. -/
theorem activeNeeds_markPaid (curMonth nid : String) :
    ∀ needs : List Need,
      activeNeeds (markPaid curMonth nid needs) =
        activeNeeds (needs.filter (fun n => !(n.id == nid))) := by
  intro needs
  induction needs with
  | nil => rfl
  | cons n ns ih =>
    have hmp : markPaid curMonth nid (n :: ns) =
        (if (n.id == nid) = true
          then { n with status := "paid", paidMonth := some curMonth } else n)
          :: markPaid curMonth nid ns := rfl
    rw [hmp]
    by_cases hid : (n.id == nid) = true
    · rw [if_pos hid]
      have h2 : (n :: ns).filter (fun x => !(x.id == nid)) =
          ns.filter (fun x => !(x.id == nid)) := by
        rw [List.filter_cons]
        simp [hid]
      have hpaid : (({ n with status := "paid", paidMonth := some curMonth } : Need).status
          == "open") = false := rfl
      rw [h2, activeNeeds_cons, hpaid, if_neg (by decide), ih]
    · rw [if_neg hid]
      have h2 : (n :: ns).filter (fun x => !(x.id == nid)) =
          n :: ns.filter (fun x => !(x.id == nid)) := by
        rw [List.filter_cons]
        simp [hid]
      rw [h2, activeNeeds_cons, activeNeeds_cons, ih]

/-- Claim C5: marking a need paid sets status `paid` and `paidMonth` to the
viewed month without touching `funded`; non-open needs are excluded from
`activeNeeds` and from `totalReservedOpen` while their `funded` stays
stored; reopening restores status `open`, clears `paidMonth` and changes no
`funded`, and undoes a mark-paid of an open unpaid need exactly. -/
theorem markPaid_reopen_spec :
    (∀ (curMonth nid : String) (needs : List Need),
      (markPaid curMonth nid needs).map Need.funded = needs.map Need.funded ∧
      (reopenNeed nid needs).map Need.funded = needs.map Need.funded ∧
      (∀ (i : Nat) (n : Need), needs.get? i = some n →
        (markPaid curMonth nid needs).get? i =
          some (if n.id == nid
            then { n with status := "paid", paidMonth := some curMonth } else n)) ∧
      (∀ (i : Nat) (n : Need), needs.get? i = some n →
        (reopenNeed nid needs).get? i =
          some (if n.id == nid
            then { n with status := "open", paidMonth := none } else n)) ∧
      (∀ o ∈ activeNeeds (markPaid curMonth nid needs), o.id ≠ nid) ∧
      totalReservedOpen (markPaid curMonth nid needs) =
        totalReservedOpen (needs.filter (fun n => !(n.id == nid))) ∧
      ((∀ n ∈ needs, n.id = nid → n.status = "open" ∧ n.paidMonth = none) →
        reopenNeed nid (markPaid curMonth nid needs) = needs)) ∧
    (∀ (needs : List Need) (n : Need), n.status ≠ "open" → n ∉ activeNeeds needs) := by
  refine ⟨fun curMonth nid needs => ⟨?_, ?_, ?_, ?_, ?_, ?_, ?_⟩, ?_⟩
  · exact map_funded_of_preserve _ (fun n => by split <;> rfl) needs
  · exact map_funded_of_preserve _ (fun n => by split <;> rfl) needs
  · intro i n hget
    unfold markPaid
    rw [List.get?_map, hget]
    rfl
  · intro i n hget
    unfold reopenNeed
    rw [List.get?_map, hget]
    rfl
  · intro o homem hoid
    rcases List.mem_filter.mp homem with ⟨hmem, hopen⟩
    rcases List.mem_map.mp hmem with ⟨n, _, hfn⟩
    by_cases hid : (n.id == nid) = true
    · rw [if_pos hid] at hfn
      rw [← hfn] at hopen
      simp at hopen
    · rw [if_neg hid] at hfn
      rw [← hfn] at hoid
      exact hid (by simp [hoid])
  · unfold totalReservedOpen
    rw [activeNeeds_markPaid]
  · intro hpre
    unfold reopenNeed markPaid
    rw [List.map_map]
    refine map_id_of_mem ?_
    intro n hn
    by_cases hid : (n.id == nid) = true
    · rcases hpre n hn (by simpa using hid) with ⟨hs, hp⟩
      simp only [Function.comp, if_pos hid]
      cases n
      simp_all
    · simp only [Function.comp, if_neg hid]
  · intro needs n hs hmem
    rcases List.mem_filter.mp hmem with ⟨_, hopen⟩
    exact hs (by simpa using hopen)

/-- Witness for C5: mark-paid then reopen round-trips on a concrete open need. -/
theorem markPaid_reopen_spec_witness :
    reopenNeed "a" (markPaid "2026-02" "a" [needSoon]) = [needSoon] :=
  (markPaid_reopen_spec.1 "2026-02" "a" [needSoon]).2.2.2.2.2.2 (by decide)

/-- A digit character differs from any non-digit character. -/
theorem jsDigit_ne {c : Char} (h : jsDigit c = true) {c2 : Char}
    (h2 : jsDigit c2 = false) : c ≠ c2 := by
  intro he
  subst he
  rw [h] at h2
  cases h2

/-- Digit characters are not JavaScript whitespace. -/
theorem jsDigit_not_space {c : Char} (h : jsDigit c = true) : isJsSpace c = false := by
  by_contra hs
  rw [Bool.not_eq_false] at hs
  unfold isJsSpace at hs
  simp only [Bool.or_eq_true, beq_iff_eq] at hs
  rcases hs with ((((((hc | hc) | hc) | hc) | hc) | hc) | hc) | hc <;> subst hc <;>
    exact absurd h (by decide)

/-- `dropWhile` is the identity when no element satisfies the predicate. -/
theorem dropWhile_of_forall_neg {p : Char → Bool} :
    ∀ {l : List Char}, (∀ c ∈ l, p c = false) → l.dropWhile p = l := by
  intro l h
  cases l with
  | nil => rfl
  | cons c cs => simp [List.dropWhile, h c (List.mem_cons_self c cs)]

/-- Trimming is the identity on whitespace-free text. -/
theorem trimJs_no_space {l : List Char} (h : ∀ c ∈ l, isJsSpace c = false) :
    trimJs l = l := by
  unfold trimJs
  rw [dropWhile_of_forall_neg h,
    dropWhile_of_forall_neg (fun c hc => h c (List.mem_reverse.mp hc)),
    List.reverse_reverse]

/-- `takeDigits` consumes an all-digit list entirely. -/
theorem takeDigits_all : ∀ {cs : List Char}, (∀ c ∈ cs, jsDigit c = true) →
    takeDigits cs = (cs.map charDigitVal, []) := by
  intro cs h
  induction cs with
  | nil => rfl
  | cons c cs ih =>
    simp only [takeDigits, h c (List.mem_cons_self _ _), if_true,
      ih (fun x hx => h x (List.mem_cons_of_mem _ hx)), List.map_cons]

/-- `decVal` with a leading zero digit. -/
theorem decVal_cons_zero (ds : List Nat) : decVal (0 :: ds) = decVal ds := rfl

/-- `decVal` of a trailing digit. -/
theorem decVal_append_single (ds : List Nat) (d : Nat) :
    decVal (ds ++ [d]) = 10 * decVal ds + d := by
  unfold decVal
  rw [List.foldl_append]
  rfl

/-- An unsigned all-digit run parses as its decimal value. -/
theorem parseUnsignedDec_digits {c : Char} {r : List Char}
    (h : ∀ x ∈ c :: r, jsDigit x = true) :
    parseUnsignedDec (c :: r) = some ((decVal ((c :: r).map charDigitVal) : ℕ) : ℚ) := by
  have hinf : c :: r ≠ "Infinity".toList := by
    intro heq
    have h2 := h 'I' (by rw [heq]; decide)
    exact absurd h2 (by decide)
  unfold parseUnsignedDec
  rw [if_neg hinf]
  unfold parseDecCore
  rw [takeDigits_all h]
  rfl

/-- `Number` of a non-empty all-digit string is its decimal value. -/
theorem jsNumber?_digits : ∀ {cs : List Char}, cs ≠ [] →
    (∀ c ∈ cs, jsDigit c = true) →
    jsNumber? ⟨cs⟩ = some ((decVal (cs.map charDigitVal) : ℕ) : ℚ) := by
  intro cs hne h
  unfold jsNumber?
  rw [show (String.mk cs).toList = cs from rfl,
    trimJs_no_space (fun c hc => jsDigit_not_space (h c hc))]
  cases cs with
  | nil => exact absurd rfl hne
  | cons c r =>
    have hc := h c (List.mem_cons_self _ _)
    show jsNumberCons c r = _
    unfold jsNumberCons
    rw [if_neg (jsDigit_ne hc (by decide : jsDigit '+' = false)),
      if_neg (jsDigit_ne hc (by decide : jsDigit '-' = false))]
    by_cases hc0 : c = '0'
    · rw [if_pos hc0]
      cases r with
      | nil =>
        subst hc0
        decide
      | cons c2 r2 =>
        have hc2 := h c2 (List.mem_cons_of_mem _ (List.mem_cons_self _ _))
        simp only [jsNumberZero]
        rw [if_neg (not_or.mpr ⟨jsDigit_ne hc2 (by decide : jsDigit 'x' = false),
              jsDigit_ne hc2 (by decide : jsDigit 'X' = false)⟩),
          if_neg (not_or.mpr ⟨jsDigit_ne hc2 (by decide : jsDigit 'o' = false),
              jsDigit_ne hc2 (by decide : jsDigit 'O' = false)⟩),
          if_neg (not_or.mpr ⟨jsDigit_ne hc2 (by decide : jsDigit 'b' = false),
              jsDigit_ne hc2 (by decide : jsDigit 'B' = false)⟩)]
        subst hc0
        exact parseUnsignedDec_digits h
    · rw [if_neg hc0]
      exact parseUnsignedDec_digits h

/-- `digitChar` produces a digit character. -/
theorem digitChar_digit {d : Nat} (h : d < 10) : jsDigit (digitChar d) = true := by
  interval_cases d <;> decide

/-- `charDigitVal` inverts `digitChar` below 10. -/
theorem charDigitVal_digitChar {d : Nat} (h : d < 10) : charDigitVal (digitChar d) = d := by
  interval_cases d <;> decide

/-- With enough fuel, `natDigitsFuel` produces the non-empty all-digit
decimal representation. -/
theorem natDigitsFuel_spec : ∀ fuel n, n < fuel →
    natDigitsFuel fuel n ≠ [] ∧ (∀ c ∈ natDigitsFuel fuel n, jsDigit c = true) ∧
    decVal ((natDigitsFuel fuel n).map charDigitVal) = n := by
  intro fuel
  induction fuel with
  | zero => intro n h; omega
  | succ fuel ih =>
    intro n h
    by_cases h10 : n < 10
    · simp only [natDigitsFuel, if_pos h10]
      refine ⟨by simp, ?_, ?_⟩
      · intro c hc
        rcases List.mem_singleton.mp hc with rfl
        exact digitChar_digit h10
      · simp [decVal, charDigitVal_digitChar h10]
    · have hdiv : n / 10 < n := Nat.div_lt_self (by omega) (by omega)
      have hlt : n / 10 < fuel := by omega
      rcases ih (n / 10) hlt with ⟨hne, hdig, hval⟩
      simp only [natDigitsFuel, if_neg h10]
      refine ⟨by simp, ?_, ?_⟩
      · intro c hc
        rcases List.mem_append.mp hc with hc | hc
        · exact hdig c hc
        · rcases List.mem_singleton.mp hc with rfl
          exact digitChar_digit (Nat.mod_lt n (by omega))
      · rw [List.map_append, List.map_singleton, decVal_append_single, hval,
          charDigitVal_digitChar (Nat.mod_lt n (by omega))]
        omega

/-- `Number(String(n))` round-trips for natural numbers. -/
theorem jsNumber?_natToStr (n : ℕ) : jsNumber? (natToStr n) = some (n : ℚ) := by
  rcases natDigitsFuel_spec (n + 1) n (Nat.lt_succ_self n) with ⟨hne, hdig, hval⟩
  rw [natToStr, jsNumber?_digits hne hdig, hval]

/-- `Number` of the zero-padded month text is the month. -/
theorem jsNumber?_pad2 (m : ℕ) : jsNumber? (pad2 m) = some (m : ℚ) := by
  unfold pad2
  by_cases h : m < 10
  · rw [if_pos h]
    rcases natDigitsFuel_spec (m + 1) m (Nat.lt_succ_self m) with ⟨hne, hdig, hval⟩
    rw [show ("0" ++ natToStr m) = ⟨'0' :: natDigitsFuel (m + 1) m⟩ from rfl,
      jsNumber?_digits (by simp) ?hall]
    case hall =>
      intro c hc
      rcases List.mem_cons.mp hc with rfl | hc
      · decide
      · exact hdig c hc
    rw [List.map_cons, show charDigitVal '0' = 0 from rfl, decVal_cons_zero, hval]
  · rw [if_neg h]
    exact jsNumber?_natToStr m

/-- Claim C6 counterexample: on input `"$100"` the source's normaliser
returns 0 (it strips only commas, and the stray `$` makes the whole parse
non-finite), while the claimed strip-all behaviour would return 100. -/
theorem toNumber_not_strip_all :
    toNumber "$100" = 0 ∧ specNormalizeMoneyText "$100" = 100 ∧ ((0 : ℚ) = 100 → False) :=
  ⟨by decide, by decide, by decide⟩

/-- Claim C6 amended: `toNumber` strips only thousands separators (commas),
parses the remainder as a JavaScript number, and yields 0 whenever that
result is not finite; it never throws (it is a total function).  The
claimed strip-all-foreign-characters behaviour is exactly the composition
of the `MoneyInput` field sanitiser with `toNumber`. -/
theorem toNumber_spec_amended :
    (∀ s : String, jsNumber? (stripCommas s) = none → toNumber s = 0) ∧
    (∀ (s : String) (q : ℚ), jsNumber? (stripCommas s) = some q → toNumber s = q) ∧
    (∀ s : String, toNumber (moneyInputSanitize s) = specNormalizeMoneyText s) ∧
    toNumber "1,234.5" = 2469 / 2 ∧ toNumber "$100" = 0 ∧ toNumber "" = 0 := by
  refine ⟨fun s h => ?_, fun s q h => ?_, fun s => ?_, by decide, by decide, by decide⟩
  · unfold toNumber
    rw [h]
    rfl
  · unfold toNumber
    rw [h]
    rfl
  · have hlist : ∀ l : List Char,
        (l.filter (fun c => jsDigit c || c = '.' || c = ',')).filter (fun c => c ≠ ',') =
          l.filter (fun c => jsDigit c || c = '.') := by
      intro l
      rw [List.filter_filter]
      refine List.filter_congr ?_
      intro c hc
      by_cases hcc : c = ','
      · subst hcc
        decide
      · simp [hcc]
    have hstr : stripCommas (moneyInputSanitize s) =
        ⟨s.toList.filter (fun c => jsDigit c || c = '.')⟩ := by
      unfold stripCommas moneyInputSanitize
      rw [show (String.mk (s.toList.filter (fun c => jsDigit c || c = '.' || c = ','))).toList
          = s.toList.filter (fun c => jsDigit c || c = '.' || c = ',') from rfl]
      rw [hlist s.toList]
    unfold toNumber specNormalizeMoneyText
    rw [hstr]

/-- Witness for C6 (amended) at a concrete comma-separated input. -/
theorem toNumber_spec_amended_witness :
    jsNumber? (stripCommas "1,234") = some 1234 ∧ toNumber "1,234" = 1234 :=
  ⟨by decide, toNumber_spec_amended.2.1 "1,234" 1234 (by decide)⟩

/-- Claim C8 counterexample: the percent field strips the minus sign before
parsing, so the raw text `"-5"` is stored as 5, not clamped to 0. -/
theorem percentClamp_neg_counterexample :
    percentClamp "-5" = 5 ∧ ((5 : ℚ) = 0 → False) :=
  ⟨by decide, by decide⟩

/-- Claim C8 amended: the stored percent value is always within `[0, 100]`
(`clampPercent(150) = 100`), but the minus sign is stripped before parsing,
so `clampPercent("-5") = 5` rather than 0. -/
theorem percentClamp_spec_amended :
    (∀ s : String, 0 ≤ percentClamp s ∧ percentClamp s ≤ 100) ∧
    percentClamp "150" = 100 ∧ percentClamp "-5" = 5 ∧ percentClamp "37.5" = 75 / 2 := by
  refine ⟨fun s => ?_, by decide, by decide, by decide⟩
  unfold percentClamp
  cases hj : jsNumber? ⟨s.toList.filter (fun c => jsDigit c || c = '.')⟩ with
  | none => exact ⟨le_refl 0, by norm_num⟩
  | some q =>
    show 0 ≤ jsMin 100 (jsMax 0 q) ∧ jsMin 100 (jsMax 0 q) ≤ 100
    rw [jsMin_eq, jsMax_eq]
    exact ⟨le_min (by norm_num) (le_max_left 0 q), min_le_left _ _⟩

/-- A `$`-headed string is not an unsigned numeric literal. -/
theorem parseUnsignedDec_dollar (ds : List Char) :
    parseUnsignedDec ('$' :: ds) = none := by
  unfold parseUnsignedDec
  rw [if_neg ?hinf]
  case hinf =>
    intro heq
    have h2 : ('$' :: ds) = 'I' :: "nfinity".toList := heq
    injection h2 with h1 _
    exact absurd h1 (by decide)
  unfold parseDecCore
  have htake : takeDigits ('$' :: ds) = ([], '$' :: ds) := by
    unfold takeDigits
    rw [if_neg (by decide)]
  rw [htake]
  rfl

/-- `Number` is `NaN` on a formatted-currency shape: optional minus, a
dollar sign, then digits. -/
theorem jsNumber?_dollar {ds : List Char}
    (hdig : ∀ c ∈ ds, jsDigit c = true) :
    jsNumber? ⟨'$' :: ds⟩ = none ∧ jsNumber? ⟨'-' :: '$' :: ds⟩ = none := by
  have hspace1 : ∀ c ∈ '$' :: ds, isJsSpace c = false := by
    intro c hc
    rcases List.mem_cons.mp hc with rfl | hc
    · decide
    · exact jsDigit_not_space (hdig c hc)
  have hspace2 : ∀ c ∈ '-' :: '$' :: ds, isJsSpace c = false := by
    intro c hc
    rcases List.mem_cons.mp hc with rfl | hc
    · decide
    · exact hspace1 c hc
  constructor
  · unfold jsNumber?
    rw [show (String.mk ('$' :: ds)).toList = '$' :: ds from rfl,
      trimJs_no_space hspace1]
    show jsNumberCons '$' ds = none
    unfold jsNumberCons
    rw [if_neg (by decide), if_neg (by decide), if_neg (by decide)]
    exact parseUnsignedDec_dollar ds
  · unfold jsNumber?
    rw [show (String.mk ('-' :: '$' :: ds)).toList = '-' :: '$' :: ds from rfl,
      trimJs_no_space hspace2]
    show jsNumberCons '-' ('$' :: ds) = none
    unfold jsNumberCons
    rw [if_neg (by decide), if_pos rfl, parseUnsignedDec_dollar ds]
    rfl

/-- Removing commas undoes the thousands grouping. -/
theorem filter_group3rev : ∀ l : List Char, (∀ c ∈ l, c ≠ ',') →
    (group3rev l).filter (fun c => c ≠ ',') = l := by
  intro l
  induction l using group3rev.induct with
  | case1 d1 d2 d3 d4 rest ih =>
    intro h
    rw [group3rev]
    have h1 : d1 ≠ ',' := h d1 (by simp)
    have h2 : d2 ≠ ',' := h d2 (by simp)
    have h3 : d3 ≠ ',' := h d3 (by simp)
    have hrest : ∀ c ∈ d4 :: rest, c ≠ ',' := by
      intro c hc
      refine h c ?_
      rcases List.mem_cons.mp hc with rfl | hc2
      · simp
      · simp [hc2]
    rw [List.filter_cons, if_pos (decide_eq_true h1), List.filter_cons,
      if_pos (decide_eq_true h2), List.filter_cons, if_pos (decide_eq_true h3),
      List.filter_cons, if_neg (by decide), ih hrest]
  | case2 l hshape =>
    intro h
    rw [group3rev.eq_def]
    split
    · rename_i d1 d2 d3 d4 rest
      exact absurd rfl (hshape d1 d2 d3 d4 rest)
    · exact List.filter_eq_self.mpr (fun c hc => by simpa using h c hc)

/-- Comma-stripping a formatted currency string leaves the optional sign,
the dollar marker and the plain digits. -/
theorem stripCommas_fmtUSD (q : ℚ) :
    stripCommas (fmtUSD q) =
      ⟨(if q < 0 then ['-'] else []) ++ '$' ::
        natDigitsFuel ((ratFloor (jsAbs q + (1 : ℚ) / 2)).toNat + 1)
          ((ratFloor (jsAbs q + (1 : ℚ) / 2)).toNat)⟩ := by
  rcases natDigitsFuel_spec ((ratFloor (jsAbs q + (1 : ℚ) / 2)).toNat + 1)
      ((ratFloor (jsAbs q + (1 : ℚ) / 2)).toNat) (Nat.lt_succ_self _)
    with ⟨_, hdig, _⟩
  unfold stripCommas fmtUSD
  refine congrArg String.mk ?_
  rw [show (String.mk ((if q < 0 then ['-'] else []) ++ '$' ::
      (group3rev (natDigitsFuel ((ratFloor (jsAbs q + (1 : ℚ) / 2)).toNat + 1)
        ((ratFloor (jsAbs q + (1 : ℚ) / 2)).toNat)).reverse).reverse)).toList =
    (if q < 0 then ['-'] else []) ++ '$' ::
      (group3rev (natDigitsFuel ((ratFloor (jsAbs q + (1 : ℚ) / 2)).toNat + 1)
        ((ratFloor (jsAbs q + (1 : ℚ) / 2)).toNat)).reverse).reverse from rfl]
  rw [List.filter_append, List.filter_cons]
  have hno : ∀ c ∈ (natDigitsFuel ((ratFloor (jsAbs q + (1 : ℚ) / 2)).toNat + 1)
      ((ratFloor (jsAbs q + (1 : ℚ) / 2)).toNat)).reverse, c ≠ ',' :=
    fun c hc => jsDigit_ne (hdig c (List.mem_reverse.mp hc)) (by decide)
  rw [List.filter_reverse, filter_group3rev _ hno, List.reverse_reverse]
  congr 1
  by_cases hq : q < 0
  · rw [if_pos hq]
    decide
  · rw [if_neg hq]
    decide

/-- The re-parse of any formatted currency value is 0. -/
theorem toNumber_fmtUSD_zero_q (q : ℚ) : toNumber (fmtUSD q) = 0 := by
  unfold toNumber
  rw [stripCommas_fmtUSD]
  rcases natDigitsFuel_spec ((ratFloor (jsAbs q + (1 : ℚ) / 2)).toNat + 1)
      ((ratFloor (jsAbs q + (1 : ℚ) / 2)).toNat) (Nat.lt_succ_self _)
    with ⟨_, hdig, _⟩
  by_cases hq : q < 0
  · rw [if_pos hq]
    rw [show ((['-'] : List Char) ++ '$' :: natDigitsFuel
        ((ratFloor (jsAbs q + (1 : ℚ) / 2)).toNat + 1)
        ((ratFloor (jsAbs q + (1 : ℚ) / 2)).toNat)) = '-' :: '$' :: natDigitsFuel
        ((ratFloor (jsAbs q + (1 : ℚ) / 2)).toNat + 1)
        ((ratFloor (jsAbs q + (1 : ℚ) / 2)).toNat) from rfl]
    rw [(jsNumber?_dollar hdig).2]
    rfl
  · rw [if_neg hq]
    rw [show (([] : List Char) ++ '$' :: natDigitsFuel
        ((ratFloor (jsAbs q + (1 : ℚ) / 2)).toNat + 1)
        ((ratFloor (jsAbs q + (1 : ℚ) / 2)).toNat)) = '$' :: natDigitsFuel
        ((ratFloor (jsAbs q + (1 : ℚ) / 2)).toNat + 1)
        ((ratFloor (jsAbs q + (1 : ℚ) / 2)).toNat) from rfl]
    rw [(jsNumber?_dollar hdig).1]
    rfl

/-- Claim C7 counterexample: normalising `"5"`, formatting it and
re-normalising yields 0, not 5 — the currency symbol is not stripped. -/
theorem toNumber_fmtUSD_not_idempotent :
    toNumber (fmtUSD (toNumber "5")) = 0 ∧ toNumber "5" = 5 ∧ ((0 : ℚ) = 5 → False) :=
  ⟨by decide, by decide, by decide⟩

/-- Claim C7 amended: re-normalising the formatter's output always yields 0
(the `$` the formatter emits makes the parse non-finite), so the
normalise-format-normalise pipeline is constantly 0 rather than idempotent. -/
theorem toNumber_fmtUSD_zero :
    (∀ q : ℚ, toNumber (fmtUSD q) = 0) ∧
    ∀ s : String, toNumber (fmtUSD (toNumber s)) = 0 :=
  ⟨toNumber_fmtUSD_zero_q, fun s => toNumber_fmtUSD_zero_q (toNumber s)⟩

/-- The decimal digits of a number do not depend on the fuel, given enough. -/
theorem natDigitsFuel_fuel_irrel : ∀ fuel fuel2 n, n < fuel → n < fuel2 →
    natDigitsFuel fuel n = natDigitsFuel fuel2 n := by
  intro fuel
  induction fuel with
  | zero => intro fuel2 n h; omega
  | succ f ih =>
    intro fuel2 n h h2
    cases fuel2 with
    | zero => omega
    | succ f2 =>
      by_cases h10 : n < 10
      · simp only [natDigitsFuel, if_pos h10]
      · have hdiv : n / 10 < n := Nat.div_lt_self (by omega) (by omega)
        simp only [natDigitsFuel, if_neg h10]
        rw [ih f2 (n / 10) (by omega) (by omega)]

/-- One decimal digit is peeled per division by ten. -/
theorem natDigitsFuel_length_step : ∀ fuel n, n < fuel → 10 ≤ n →
    (natDigitsFuel fuel n).length =
      (natDigitsFuel (n / 10 + 1) (n / 10)).length + 1 := by
  intro fuel n hf h10
  cases fuel with
  | zero => omega
  | succ f =>
    have hdiv : n / 10 < n := Nat.div_lt_self (by omega) (by omega)
    simp only [natDigitsFuel, if_neg (by omega : ¬n < 10)]
    rw [List.length_append,
      natDigitsFuel_fuel_irrel f (n / 10 + 1) (n / 10) (by omega) (Nat.lt_succ_self _)]
    rfl

/-- A single digit renders with length one. -/
theorem natDigitsFuel_length_one {n : ℕ} (h : n < 10) :
    (natDigitsFuel (n + 1) n).length = 1 := by
  simp [natDigitsFuel, if_pos h]

/-- A year in 1000–9999 renders as exactly four characters. -/
theorem natToStr_length_four {n : ℕ} (h1 : 1000 ≤ n) (h2 : n ≤ 9999) :
    (natToStr n).length = 4 := by
  have s1 := natDigitsFuel_length_step (n + 1) n (Nat.lt_succ_self n) (by omega)
  have hr1a : 100 ≤ n / 10 := by
    calc 100 = 1000 / 10 := by norm_num
      _ ≤ n / 10 := Nat.div_le_div_right h1
  have hr1b : n / 10 ≤ 999 := by
    calc n / 10 ≤ 9999 / 10 := Nat.div_le_div_right h2
      _ = 999 := by norm_num
  have s2 := natDigitsFuel_length_step (n / 10 + 1) (n / 10) (Nat.lt_succ_self _) (by omega)
  have hr2a : 10 ≤ n / 10 / 10 := by
    calc 10 = 100 / 10 := by norm_num
      _ ≤ n / 10 / 10 := Nat.div_le_div_right hr1a
  have hr2b : n / 10 / 10 ≤ 99 := by
    calc n / 10 / 10 ≤ 999 / 10 := Nat.div_le_div_right hr1b
      _ = 99 := by norm_num
  have s3 := natDigitsFuel_length_step (n / 10 / 10 + 1) (n / 10 / 10)
    (Nat.lt_succ_self _) (by omega)
  have hr3a : 1 ≤ n / 10 / 10 / 10 := by
    calc 1 = 10 / 10 := by norm_num
      _ ≤ n / 10 / 10 / 10 := Nat.div_le_div_right hr2a
  have hr3b : n / 10 / 10 / 10 ≤ 9 := by
    calc n / 10 / 10 / 10 ≤ 99 / 10 := Nat.div_le_div_right hr2b
      _ = 9 := by norm_num
  have s4 := natDigitsFuel_length_one (show n / 10 / 10 / 10 < 10 by omega)
  show (natDigitsFuel (n + 1) n).length = 4
  omega

/-- A month in 1–12 pads to exactly two characters. -/
theorem pad2_length_two {m : ℕ} (h1 : 1 ≤ m) (h2 : m ≤ 12) :
    (pad2 m).length = 2 := by
  interval_cases m <;> decide

/-- Splitting a dash-free run. -/
theorem splitDashAux_no_dash : ∀ (xs acc : List Char), (∀ c ∈ xs, c ≠ '-') →
    splitDashAux xs acc = [⟨acc.reverse ++ xs⟩] := by
  intro xs
  induction xs with
  | nil =>
    intro acc h
    simp [splitDashAux]
  | cons c cs ih =>
    intro acc h
    unfold splitDashAux
    rw [if_neg (h c (List.mem_cons_self _ _)),
      ih (c :: acc) (fun x hx => h x (List.mem_cons_of_mem _ hx))]
    simp [List.append_assoc]

/-- Splitting at the first dash. -/
theorem splitDashAux_append : ∀ (xs rest acc : List Char), (∀ c ∈ xs, c ≠ '-') →
    splitDashAux (xs ++ '-' :: rest) acc =
      ⟨acc.reverse ++ xs⟩ :: splitDashAux rest [] := by
  intro xs
  induction xs with
  | nil =>
    intro rest acc h
    show splitDashAux ('-' :: rest) acc = _
    conv_lhs => rw [splitDashAux]
    rw [if_pos rfl]
    simp
  | cons c cs ih =>
    intro rest acc h
    show splitDashAux (c :: (cs ++ '-' :: rest)) acc = _
    conv_lhs => rw [splitDashAux]
    rw [if_neg (h c (List.mem_cons_self _ _)),
      ih rest (c :: acc) (fun x hx => h x (List.mem_cons_of_mem _ hx))]
    simp [List.append_assoc]

/-- Rendering for a non-negative year. -/
theorem renderToken_natCast (y m : ℕ) :
    renderToken (y : ℤ) m = natToStr y ++ "-" ++ pad2 m := by
  unfold renderToken intToStr
  rw [if_neg (not_lt.mpr (Int.natCast_nonneg y)), Int.toNat_natCast]

/-- All characters of `pad2` are digits. -/
theorem pad2_digits (m : ℕ) : ∀ c ∈ (pad2 m).toList, jsDigit c = true := by
  intro c hc
  unfold pad2 at hc
  by_cases h : m < 10
  · rw [if_pos h] at hc
    have hz : ("0" ++ natToStr m).toList = '0' :: (natToStr m).toList := by
      show ("0" ++ natToStr m).data = '0' :: (natToStr m).data
      rw [String.data_append]
      rfl
    rw [hz] at hc
    rcases List.mem_cons.mp hc with rfl | hc
    · decide
    · exact (natDigitsFuel_spec (m + 1) m (Nat.lt_succ_self m)).2.1 c hc
  · rw [if_neg h] at hc
    exact (natDigitsFuel_spec (m + 1) m (Nat.lt_succ_self m)).2.1 c hc

/-- Splitting a rendered token recovers the year and month pieces. -/
theorem splitOnDash_renderToken (y m : ℕ) :
    splitOnDash (renderToken (y : ℤ) m) = [natToStr y, pad2 m] := by
  rw [renderToken_natCast]
  unfold splitOnDash
  have htl : (natToStr y ++ "-" ++ pad2 m).toList =
      (natToStr y).toList ++ '-' :: (pad2 m).toList := by
    show (natToStr y ++ "-" ++ pad2 m).data =
      (natToStr y).data ++ '-' :: (pad2 m).data
    rw [String.data_append, String.data_append, List.append_assoc]
    rfl
  have hyd : ∀ c ∈ (natToStr y).toList, c ≠ '-' := fun c hc =>
    jsDigit_ne ((natDigitsFuel_spec (y + 1) y (Nat.lt_succ_self y)).2.1 c hc) (by decide)
  have hmd : ∀ c ∈ (pad2 m).toList, c ≠ '-' := fun c hc =>
    jsDigit_ne (pad2_digits m c hc) (by decide)
  rw [htl, splitDashAux_append _ _ [] hyd, splitDashAux_no_dash _ [] hmd]
  simp

/-- `ToInteger` truncation of a natural number is itself. -/
theorem jsTrunc_natCast (n : ℕ) : jsTrunc ((n : ℕ) : ℚ) = n := by
  unfold jsTrunc ratFloor
  rw [if_pos (by positivity), Rat.num_natCast, Rat.den_natCast]
  show ((n : ℤ)) / ((1 : ℕ) : ℤ) = n
  rw [Nat.cast_one, Int.ediv_one]

/-- `monthDiff` of two rendered tokens. -/
theorem monthDiff?_renderToken (y1 m1 y2 m2 : ℕ) :
    monthDiff? (renderToken (y1 : ℤ) m1) (renderToken (y2 : ℤ) m2) =
      some (((y2 : ℚ) - (y1 : ℚ)) * 12 + ((m2 : ℚ) - (m1 : ℚ))) := by
  unfold monthDiff?
  rw [splitOnDash_renderToken, splitOnDash_renderToken]
  rw [show ([natToStr y1, pad2 m1].get? 0) = some (natToStr y1) from rfl,
    show ([natToStr y1, pad2 m1].get? 1) = some (pad2 m1) from rfl,
    show ([natToStr y2, pad2 m2].get? 0) = some (natToStr y2) from rfl,
    show ([natToStr y2, pad2 m2].get? 1) = some (pad2 m2) from rfl,
    Option.some_bind, Option.some_bind, Option.some_bind, Option.some_bind,
    jsNumber?_natToStr, jsNumber?_pad2, jsNumber?_natToStr, jsNumber?_pad2]

/-- `monthAdd` on a valid rendered token is the floor-normalised month
arithmetic of the source's `Date` manipulation. -/
theorem monthAdd_renderToken (y m : ℕ) (d : ℤ) (hy1 : 1000 ≤ y) (hm1 : 1 ≤ m) :
    monthAdd (renderToken (y : ℤ) m) d =
      renderToken (Int.fdiv ((y : ℤ) * 12 + ((m : ℤ) - 1) + d) 12)
        ((Int.fmod ((y : ℤ) * 12 + ((m : ℤ) - 1) + d) 12).toNat + 1) := by
  unfold monthAdd
  rw [splitOnDash_renderToken]
  rw [show ([natToStr y, pad2 m].get? 0) = some (natToStr y) from rfl,
    show ([natToStr y, pad2 m].get? 1) = some (pad2 m) from rfl,
    Option.some_bind, Option.some_bind, jsNumber?_natToStr, jsNumber?_pad2]
  show renderToken (Int.fdiv (monthAddTotal (y : ℚ) (some (m : ℚ)) d) 12)
    ((Int.fmod (monthAddTotal (y : ℚ) (some (m : ℚ)) d) 12).toNat + 1) = _
  have htot : monthAddTotal (y : ℚ) (some (m : ℚ)) d =
      (y : ℤ) * 12 + ((m : ℤ) - 1) + d := by
    unfold monthAddTotal dateYear
    rw [show dateMonth (some ((m : ℕ) : ℚ)) =
        (if jsTrunc ((m : ℕ) : ℚ) = 0 then 1 else jsTrunc ((m : ℕ) : ℚ)) from rfl]
    rw [jsTrunc_natCast, jsTrunc_natCast]
    rw [if_neg (by omega : ¬(0 ≤ (y : ℤ) ∧ (y : ℤ) ≤ 99)),
      if_neg (by omega : ¬((m : ℤ) = 0))]
  rw [htot]

/-- Claim C9 counterexample: a large negative delta yields a 3-digit year,
so the output does not serialise as a 4-digit year for every integer delta. -/
theorem monthAdd_year_not_four_digits :
    monthAdd "2026-01" (-18000) = "526-01" ∧
    ((splitOnDash (monthAdd "2026-01" (-18000))).headD "").length ≠ 4 :=
  ⟨by decide, by decide⟩

/-- Claim C9 amended: for every valid token and integer delta whose result
stays within 4-digit years, `monthAdd` yields the token exactly delta months
later — carrying and borrowing across year boundaries — serialised as a
4-digit year and 2-digit zero-padded month; and the spec's two examples
hold. -/
theorem monthAdd_spec_amended :
    (∀ (y m : ℕ) (d : ℤ), 1000 ≤ y → y ≤ 9999 → 1 ≤ m → m ≤ 12 →
      12000 ≤ (y : ℤ) * 12 + ((m : ℤ) - 1) + d →
      (y : ℤ) * 12 + ((m : ℤ) - 1) + d < 120000 →
      ∃ (y2 m2 : ℕ),
        monthAdd (renderToken (y : ℤ) m) d = renderToken (y2 : ℤ) m2 ∧
        1000 ≤ y2 ∧ y2 ≤ 9999 ∧ 1 ≤ m2 ∧ m2 ≤ 12 ∧
        (y2 : ℤ) * 12 + ((m2 : ℤ) - 1) = (y : ℤ) * 12 + ((m : ℤ) - 1) + d ∧
        monthDiff? (renderToken (y : ℤ) m) (monthAdd (renderToken (y : ℤ) m) d) =
          some ((d : ℚ)) ∧
        (natToStr y2).length = 4 ∧ (pad2 m2).length = 2) ∧
    monthAdd "2026-12" 1 = "2027-01" ∧ monthAdd "2026-01" (-1) = "2025-12" := by
  refine ⟨fun y m d hy1 hy2 hm1 hm2 hlo hhi => ?_, by decide, by decide⟩
  have key := monthAdd_renderToken y m d hy1 hm1
  generalize htotal : (y : ℤ) * 12 + ((m : ℤ) - 1) + d = total at key hlo hhi ⊢
  have h12 : (0 : ℤ) < 12 := by norm_num
  have hfd : Int.fdiv total 12 = total / 12 := Int.fdiv_eq_ediv total (by norm_num)
  have hfm : Int.fmod total 12 = total % 12 := Int.fmod_eq_emod total (by norm_num)
  have hdiv : 12 * (total / 12) + total % 12 = total := Int.ediv_add_emod total 12
  have hqlo : 1000 ≤ total / 12 := (Int.le_ediv_iff_mul_le h12).mpr (by omega)
  have hqhi : total / 12 < 10000 := (Int.ediv_lt_iff_lt_mul h12).mpr (by omega)
  have hrlo : 0 ≤ total % 12 := Int.emod_nonneg total (by norm_num)
  have hrhi : total % 12 < 12 := Int.emod_lt_of_pos total h12
  refine ⟨(total / 12).toNat, (total % 12).toNat + 1, ?_, ?_, ?_, ?_, ?_, ?_, ?_, ?_, ?_⟩
  · rw [key, hfd, hfm]
    congr 1
    omega
  · omega
  · omega
  · omega
  · omega
  · omega
  · rw [key, hfd, hfm]
    rw [show (total / 12) = (((total / 12).toNat : ℕ) : ℤ) by omega]
    rw [monthDiff?_renderToken]
    congr 1
    have hz : ((total / 12).toNat : ℤ) * 12 + (((total % 12).toNat : ℤ) + 1)
        - ((y : ℤ) * 12 + (m : ℤ)) = d := by omega
    have hq := congrArg (fun z : ℤ => (z : ℚ)) hz
    push_cast at hq ⊢
    linarith
  · exact natToStr_length_four (by omega) (by omega)
  · exact pad2_length_two (by omega) (by omega)

/-- Witness for C9 (amended) at the spec's year-rollover example. -/
theorem monthAdd_spec_amended_witness :
    ∃ (y2 m2 : ℕ),
      monthAdd (renderToken ((2026 : ℕ) : ℤ) 12) 1 = renderToken (y2 : ℤ) m2 ∧
      1000 ≤ y2 ∧ y2 ≤ 9999 ∧ 1 ≤ m2 ∧ m2 ≤ 12 ∧
      (y2 : ℤ) * 12 + ((m2 : ℤ) - 1) = ((2026 : ℕ) : ℤ) * 12 + (((12 : ℕ) : ℤ) - 1) + 1 ∧
      monthDiff? (renderToken ((2026 : ℕ) : ℤ) 12)
        (monthAdd (renderToken ((2026 : ℕ) : ℤ) 12) 1) = some ((1 : ℤ) : ℚ) ∧
      (natToStr y2).length = 4 ∧ (pad2 m2).length = 2 :=
  monthAdd_spec_amended.1 2026 12 1 (by norm_num) (by norm_num) (by norm_num)
    (by norm_num) (by norm_num) (by norm_num)

end Cashflow
